import Mathlib

/-!
Shallow embedding of `servicenow.go` (alertmanager-webhook-servicenow): a ServiceNow
table-API client with a constructor (`NewServiceNowClient`), generic table operations
(`create`, `get`, `update`), a shared request executor (`doRequest`) and three typed
operations (`CreateIncident`, `GetIncidents`, `UpdateIncident`).

Modelling conventions:
* Go strings are immutable byte sequences; they are modelled as `List Nat` (each
  element a byte value).  Source string literals, all ASCII, are written via `strB`.
* JSON values are a `Json` inductive keeping numbers as raw literal text, exactly the
  way `encoding/json`'s `json.Number` does.  `json.Marshal` / `json.Unmarshal` of the
  concrete struct types in the source are translated field by field from the struct
  tags (`omitempty` handling, `json.Number` string/number decoding, `interface{}`
  fields holding arbitrary JSON).  Object keys are matched to fields the way the Go
  decoder does: exactly, or case-insensitively as a fallback (`jsonKeyFold`, the
  `equalFoldRight` semantics, with the two special Unicode folds).  Since all the
  struct tags here are distinct lower-case ASCII names, a key can fold-match at most
  one tag and an exact match folds to the same tag, so the decoder is a single
  fold-match chain.
* The HTTP transport (`*http.Client`) is an explicit function parameter from requests
  to transport outcomes; response bodies are modelled by their JSON parse outcome.
  `http.NewRequest` URL-parse failures are not modelled (the URLs built here are
  plain interpolations of the base address).
* Fallible Go `(value, error)` returns are modelled as pairs of options mirroring the
  exact `return` sites of the source.
-/

/-- Go strings are byte sequences; bytes are modelled as `Nat` values. -/
abbrev ByteStr := List Nat

/-- Byte encoding of an ASCII source literal. -/
def strB (s : String) : ByteStr := s.data.map Char.toNat

/-- JSON values; `num` keeps the raw numeric literal text and `obj` keeps member
order, matching how `encoding/json` tokenizes input and processes object members in
order of appearance. -/
inductive Json where
  | null : Json
  | bool (b : Bool) : Json
  | num (raw : ByteStr) : Json
  | str (s : ByteStr) : Json
  | arr (elems : List Json) : Json
  | obj (members : List (ByteStr × Json)) : Json

/-- The `Incident` struct of the source.  `LinkedValue` is `interface{}` in Go; an
interface value is either nil or holds a dynamic value, modelled as `Option Json`
(the JSON image of the held value).  `json.Number` fields keep their raw text. -/
structure Incident where
  assignmentGroup : Option Json
  contactType : ByteStr
  callerID : Option Json
  comments : ByteStr
  description : ByteStr
  groupKey : ByteStr
  impact : ByteStr
  number : ByteStr
  priority : ByteStr
  shortDescription : ByteStr
  state : ByteStr
  sysID : ByteStr
  urgency : ByteStr

/-- The zero value of `Incident` (fresh `Incident{}` in Go). -/
def zeroIncident : Incident :=
  { assignmentGroup := none, contactType := [], callerID := none, comments := []
  , description := [], groupKey := [], impact := [], number := [], priority := []
  , shortDescription := [], state := [], sysID := [], urgency := [] }

/-- `IncidentResponse` of the source: `{ Result Incident }` with tag `result`. -/
structure IncidentResponse where
  result : Incident

/-- `IncidentsResponse` of the source: `{ Result []Incident }` with tag `result`.
Go slices conflate nil and empty here; both are modelled as `[]`. -/
structure IncidentsResponse where
  result : List Incident

/-! JSON number grammar, following encoding/json `isValidNumber` (RFC 8259). -/

def isDigit (b : Nat) : Bool := 48 ≤ b && b ≤ 57

def dropDigits : ByteStr → ByteStr
  | [] => []
  | b :: rest => if isDigit b then dropDigits rest else b :: rest

def numInt : ByteStr → Option ByteStr
  | [] => none
  | b :: rest =>
    if b = 48 then some rest
    else if 49 ≤ b && b ≤ 57 then some (dropDigits rest) else none

def numFrac : ByteStr → Option ByteStr
  | 46 :: rest =>
    match rest with
    | [] => none
    | b :: rest2 => if isDigit b then some (dropDigits rest2) else none
  | s => some s

def numExpDigits : ByteStr → Option ByteStr
  | [] => none
  | b :: rest => if isDigit b then some (dropDigits rest) else none

def numExp : ByteStr → Option ByteStr
  | [] => some []
  | b :: rest =>
    if b = 101 || b = 69 then
      match rest with
      | 43 :: rest2 => numExpDigits rest2
      | 45 :: rest2 => numExpDigits rest2
      | _ => numExpDigits rest
    else some (b :: rest)

/-- encoding/json `isValidNumber`: the JSON number grammar, on raw bytes. -/
def isValidNumber (s : ByteStr) : Bool :=
  let s1 := match s with
    | 45 :: rest => rest
    | _ => s
  match numInt s1 with
  | none => false
  | some r1 =>
    match numFrac r1 with
    | none => false
    | some r2 =>
      match numExp r2 with
      | none => false
      | some r3 => r3.isEmpty

/-! Marshalling of `Incident`, translated from the struct tags in the source. -/

/-- Encoding of a `json.Number` field tagged `omitempty`: omitted when empty,
emitted as a raw (unquoted) JSON number when a valid number, an error otherwise. -/
def numField (key : ByteStr) (v : ByteStr) : Except String (List (ByteStr × Json)) :=
  if v = [] then .ok []
  else if isValidNumber v then .ok [(key, Json.num v)]
  else .error "json: invalid number literal"

/-- Encoding of a `string` field tagged `omitempty`. -/
def strField (key : ByteStr) (v : ByteStr) : List (ByteStr × Json) :=
  if v = [] then [] else [(key, Json.str v)]

/-- Encoding of a `LinkedValue` (`interface{}`) field without `omitempty`:
a nil interface marshals to JSON null. -/
def linkedToJson : Option Json → Json
  | none => Json.null
  | some j => j

/-- Encoding of a `LinkedValue` (`interface{}`) field tagged `omitempty`:
omitted exactly when the interface is nil. -/
def optLinkedField (key : ByteStr) : Option Json → List (ByteStr × Json)
  | none => []
  | some j => [(key, j)]

/-- `json.Marshal` of an `Incident`, field by field in struct order with the tags
of the source (`assignment_group`, `contact_type,omitempty`, `caller_id,omitempty`,
`comments`, `description`, `u_other_reference_1`, `impact,omitempty`,
`number,omitempty`, `priority,omitempty`, `short_description`, `state,omitempty`,
`sys_id,omitempty`, `urgency,omitempty`). -/
def marshalIncident (inc : Incident) : Except String Json := do
  let impactF ← numField (strB "impact") inc.impact
  let stateF ← numField (strB "state") inc.state
  let urgencyF ← numField (strB "urgency") inc.urgency
  return Json.obj
    ([(strB "assignment_group", linkedToJson inc.assignmentGroup)]
      ++ strField (strB "contact_type") inc.contactType
      ++ optLinkedField (strB "caller_id") inc.callerID
      ++ [(strB "comments", Json.str inc.comments),
          (strB "description", Json.str inc.description),
          (strB "u_other_reference_1", Json.str inc.groupKey)]
      ++ impactF
      ++ strField (strB "number") inc.number
      ++ strField (strB "priority") inc.priority
      ++ [(strB "short_description", Json.str inc.shortDescription)]
      ++ stateF
      ++ strField (strB "sys_id") inc.sysID
      ++ urgencyF)

/-! Unmarshalling, translated from encoding/json decode semantics for the three
struct types of the source. -/

/-- Decoding a JSON value into a `string` field: strings are taken, null leaves the
previous value, anything else is an error. -/
def decodeString (v : Json) (old : ByteStr) : Except String ByteStr :=
  match v with
  | Json.str s => .ok s
  | Json.null => .ok old
  | _ => .error "json: cannot unmarshal value into Go value of type string"

/-- Decoding a JSON value into a `json.Number` field: a number keeps its raw text; a
quoted string is accepted when its content is a valid number (its text is kept,
the quoting is not); null leaves the previous value. -/
def decodeNumber (v : Json) (old : ByteStr) : Except String ByteStr :=
  match v with
  | Json.num s => .ok s
  | Json.str s =>
    if isValidNumber s then .ok s
    else .error "json: invalid number literal"
  | Json.null => .ok old
  | _ => .error "json: cannot unmarshal value into Go value of type json.Number"

/-- Decoding a JSON value into an `interface{}` (`LinkedValue`) field: null gives the
nil interface, any other value is held as is. -/
def decodeIface : Json → Option Json
  | Json.null => none
  | j => some j

/-- ASCII upper-case fold of one byte (lower-case letters to upper case). -/
def foldUpper (b : Nat) : Nat := if 97 ≤ b && b ≤ 122 then b - 32 else b

def isAsciiLetter (b : Nat) : Bool :=
  (65 ≤ b && b ≤ 90) || (97 ≤ b && b ≤ 122)

/-- encoding/json field-name matching, the `equalFoldRight` semantics with the
struct tag (ASCII, as all tags of this client are) on the left and the incoming
member name on the right: ASCII letters compare case-insensitively, other ASCII
bytes exactly, and the two special Unicode folds are honoured (U+017F, bytes
197 191, matches an s tag byte; U+212A, bytes 226 132 170, matches a k tag byte).
The Go decoder prefers an exact tag match and falls back to this fold; because the
tags here are distinct lower-case names, a member name fold-matches at most one tag
and an exact match selects that same tag, so one fold test per tag is faithful. -/
def jsonKeyFold : ByteStr → ByteStr → Bool
  | [], key => key.isEmpty
  | _ :: _, [] => false
  | sb :: srest, tb :: trest =>
    if tb < 128 then
      (sb == tb || (isAsciiLetter sb && foldUpper sb == foldUpper tb)) &&
        jsonKeyFold srest trest
    else if sb == 115 || sb == 83 then
      match tb :: trest with
      | 197 :: 191 :: trest2 => jsonKeyFold srest trest2
      | _ => false
    else if sb == 107 || sb == 75 then
      match tb :: trest with
      | 226 :: 132 :: 170 :: trest2 => jsonKeyFold srest trest2
      | _ => false
    else false

/-- One object member applied to an `Incident` during decoding: the member name
selects the field whose tag it matches (exactly or case-folded, `jsonKeyFold`);
unmatched members are ignored. -/
def setIncidentField (inc : Incident) (key : ByteStr) (v : Json) : Except String Incident :=
  if jsonKeyFold (strB "assignment_group") key then
    .ok { inc with assignmentGroup := decodeIface v }
  else if jsonKeyFold (strB "contact_type") key then
    (decodeString v inc.contactType).map fun s => { inc with contactType := s }
  else if jsonKeyFold (strB "caller_id") key then
    .ok { inc with callerID := decodeIface v }
  else if jsonKeyFold (strB "comments") key then
    (decodeString v inc.comments).map fun s => { inc with comments := s }
  else if jsonKeyFold (strB "description") key then
    (decodeString v inc.description).map fun s => { inc with description := s }
  else if jsonKeyFold (strB "u_other_reference_1") key then
    (decodeString v inc.groupKey).map fun s => { inc with groupKey := s }
  else if jsonKeyFold (strB "impact") key then
    (decodeNumber v inc.impact).map fun s => { inc with impact := s }
  else if jsonKeyFold (strB "number") key then
    (decodeString v inc.number).map fun s => { inc with number := s }
  else if jsonKeyFold (strB "priority") key then
    (decodeString v inc.priority).map fun s => { inc with priority := s }
  else if jsonKeyFold (strB "short_description") key then
    (decodeString v inc.shortDescription).map fun s => { inc with shortDescription := s }
  else if jsonKeyFold (strB "state") key then
    (decodeNumber v inc.state).map fun s => { inc with state := s }
  else if jsonKeyFold (strB "sys_id") key then
    (decodeString v inc.sysID).map fun s => { inc with sysID := s }
  else if jsonKeyFold (strB "urgency") key then
    (decodeNumber v inc.urgency).map fun s => { inc with urgency := s }
  else .ok inc

/-- Decoding a JSON value into an `Incident`: an object applies its members in
order, null leaves the value unchanged, anything else is an error. -/
def decodeIncident (start : Incident) : Json → Except String Incident
  | Json.null => .ok start
  | Json.obj members =>
    members.foldlM (fun acc kv => setIncidentField acc kv.1 kv.2) start
  | _ => .error "json: cannot unmarshal value into Go value of type Incident"

/-- Decoding a JSON value into a `[]Incident`: null gives the nil slice, an array
decodes each element into a fresh zero `Incident` (the starting slice is always the
zero slice in this client), anything else is an error. -/
def decodeIncidentList : Json → Except String (List Incident)
  | Json.null => .ok []
  | Json.arr xs => xs.mapM (decodeIncident zeroIncident)
  | _ => .error "json: cannot unmarshal value into Go value of type []Incident"

/-- `json.Unmarshal` into a fresh `IncidentResponse{}`; the `result` member is
selected the way the decoder matches names (exactly or case-folded). -/
def decodeIncidentResponse : Json → Except String IncidentResponse
  | Json.null => .ok ⟨zeroIncident⟩
  | Json.obj members =>
    (members.foldlM
      (fun acc kv =>
        if jsonKeyFold (strB "result") kv.1 then decodeIncident acc kv.2 else .ok acc)
      zeroIncident).map IncidentResponse.mk
  | _ => .error "json: cannot unmarshal value into Go value of type IncidentResponse"

/-- `json.Unmarshal` into a fresh `IncidentsResponse{}`; `result` matched as in
`decodeIncidentResponse`.  A repeated `result` member re-decodes from a fresh
slice; Go would reuse the existing backing array — latent, no theorem below
reaches that region. -/
def decodeIncidentsResponse : Json → Except String IncidentsResponse
  | Json.null => .ok ⟨[]⟩
  | Json.obj members =>
    (members.foldlM
      (fun acc kv =>
        if jsonKeyFold (strB "result") kv.1 then decodeIncidentList kv.2 else .ok acc)
      []).map IncidentsResponse.mk
  | _ => .error "json: cannot unmarshal value into Go value of type IncidentsResponse"

/-- A response body, modelled by its JSON parse outcome: `json.Unmarshal` first
requires syntactically valid JSON. -/
inductive BodyBytes where
  | malformed (tag : Nat)
  | wellFormed (j : Json)

/-- `json.Unmarshal(body, &IncidentResponse{})`. -/
def unmarshalIncidentResponse : BodyBytes → Except String IncidentResponse
  | .malformed _ => .error "invalid character in JSON input"
  | .wellFormed j => decodeIncidentResponse j

/-- `json.Unmarshal(body, &IncidentsResponse{})`. -/
def unmarshalIncidentsResponse : BodyBytes → Except String IncidentsResponse
  | .malformed _ => .error "invalid character in JSON input"
  | .wellFormed j => decodeIncidentsResponse j

/-! Base64 (encoding/base64).  `NewServiceNowClient` uses `base64.URLEncoding` (the
URL-safe RFC 4648 section 5 alphabet, padded); the standard alphabet is defined
alongside for comparison with the specification's words. -/

/-- Byte at a given index of the base64 alphabets; `urlSafe` selects the alphabet of
Go `base64.URLEncoding`, where indices 62 and 63 map to minus and underscore instead
of plus and slash. -/
def b64char (urlSafe : Bool) (i : Nat) : Nat :=
  if i < 26 then 65 + i
  else if i < 52 then 97 + (i - 26)
  else if i < 62 then 48 + (i - 52)
  else if i = 62 then (if urlSafe then 45 else 43)
  else (if urlSafe then 95 else 47)

/-- Padded base64 encoding over an alphabet: three input bytes become four output
bytes; one or two leftover bytes are padded with `=` (byte 61). -/
def b64encodeWith (urlSafe : Bool) : ByteStr → ByteStr
  | [] => []
  | [b1] => [b64char urlSafe (b1 / 4), b64char urlSafe (b1 % 4 * 16), 61, 61]
  | [b1, b2] =>
    [b64char urlSafe (b1 / 4), b64char urlSafe (b1 % 4 * 16 + b2 / 16),
     b64char urlSafe (b2 % 16 * 4), 61]
  | b1 :: b2 :: b3 :: rest =>
    b64char urlSafe (b1 / 4) :: b64char urlSafe (b1 % 4 * 16 + b2 / 16) ::
      b64char urlSafe (b2 % 16 * 4 + b3 / 64) :: b64char urlSafe (b3 % 64) ::
        b64encodeWith urlSafe rest

/-- `base64.URLEncoding.EncodeToString`, as called in `NewServiceNowClient`. -/
def base64URLEncode (s : ByteStr) : ByteStr := b64encodeWith true s

/-- Standard padded base64 (RFC 4648 section 4), the encoding the specification's
unqualified words "base64 encoding" denote; defined from those words, for comparison
with the URL-safe encoding the code uses. -/
def base64StdEncode (s : ByteStr) : ByteStr := b64encodeWith false s

/-! The client, its errors, and the request pipeline. -/

/-- The distinct error constructions of the source, one constructor per site: the
three `Missing ...` construction errors, `client.Do` failure, the HTTP status >= 400
error (carrying the numeric status code as its message does), body read failure, and
the marshalling/unmarshalling errors of the typed operations. -/
inductive SnError where
  | config (msg : String)
  | transport (msg : String)
  | remote (statusCode : Nat)
  | bodyRead (msg : String)
  | marshal (msg : String)
  | unmarshal (msg : String)
deriving DecidableEq

/-- `ServiceNowClient` of the source; the `client *http.Client` field is modelled as
the explicit transport parameter of the operations. -/
structure ServiceNowClient where
  baseURL : ByteStr
  authHeader : ByteStr

/-- `serviceNowBaseURL = "https://%s.service-now.com"` interpolated by `fmt.Sprintf`. -/
def serviceNowBaseURL (instanceName : ByteStr) : ByteStr :=
  strB "https://" ++ instanceName ++ strB ".service-now.com"

/-- `tableAPI = "%s/api/now/v2/table/%s"` interpolated by `fmt.Sprintf`. -/
def tableAPI (base table : ByteStr) : ByteStr :=
  base ++ strB "/api/now/v2/table/" ++ table

/-- `NewServiceNowClient`, with the Go `(*ServiceNowClient, error)` return modelled
as a pair of options mirroring each return site. -/
def NewServiceNowClient (instanceName userName password : ByteStr) :
    Option ServiceNowClient × Option SnError :=
  if instanceName = [] then (none, some (.config "Missing instanceName"))
  else if userName = [] then (none, some (.config "Missing userName"))
  else if password = [] then (none, some (.config "Missing password"))
  else
    (some { baseURL := serviceNowBaseURL instanceName
          , authHeader := strB "Basic " ++ base64URLEncode (userName ++ strB ":" ++ password) },
     none)

/-- An outgoing HTTP request: method, URL (scheme, host and path as one byte string),
raw query component, headers, body. -/
structure Request where
  method : ByteStr
  urlPath : ByteStr
  rawQuery : ByteStr
  headers : List (ByteStr × ByteStr)
  body : Option BodyBytes

/-- An HTTP response as seen by `doRequest`: its status code and the outcome of
reading its body to the end (`ioutil.ReadAll`). -/
structure HttpResponse where
  statusCode : Nat
  readResult : Except String BodyBytes

/-- Outcome of `client.Do`: a transport failure or a received response. -/
inductive TransportResult where
  | failure (msg : String)
  | response (resp : HttpResponse)

/-- The HTTP transport, an external collaborator. -/
abbrev Transport := Request → TransportResult

/-! URL query encoding (net/url), used by `get`:  `req.URL.Query()` on a query-free
URL is empty, `q.Add` inserts each params entry, and `q.Encode()` sorts the keys and
percent-escapes each key and value. -/

/-- Bytes `url.QueryEscape` leaves unescaped: ASCII alphanumerics and `-._~`. -/
def isUnreservedByte (b : Nat) : Bool :=
  (48 ≤ b && b ≤ 57) || (65 ≤ b && b ≤ 90) || (97 ≤ b && b ≤ 122) ||
    b = 45 || b = 46 || b = 95 || b = 126

/-- Upper-case hexadecimal digit of a value below 16. -/
def hexDigitU (n : Nat) : Nat := if n < 10 then 48 + n else 55 + n

/-- Escaping of one byte in a query component: unreserved bytes kept, space becomes
plus (byte 43), everything else percent-encoded. -/
def escByte (b : Nat) : List Nat :=
  if isUnreservedByte b then [b]
  else if b = 32 then [43]
  else [37, hexDigitU (b / 16), hexDigitU (b % 16)]

/-- `url.QueryEscape` over a byte string. -/
def queryEscape : ByteStr → ByteStr
  | [] => []
  | b :: rest => escByte b ++ queryEscape rest

/-- Byte-wise lexicographic order on byte strings (Go string comparison, as used by
`sort.Strings` inside `url.Values.Encode`). -/
def lexLe : ByteStr → ByteStr → Bool
  | [], _ => true
  | _ :: _, [] => false
  | a :: as, b :: bs => if a < b then true else if b < a then false else lexLe as bs

def insertByKey (p : ByteStr × ByteStr) :
    List (ByteStr × ByteStr) → List (ByteStr × ByteStr)
  | [] => [p]
  | q :: qs => if lexLe p.1 q.1 then p :: q :: qs else q :: insertByKey p qs

/-- Insertion sort of the params entries by key, modelling the key sort inside
`url.Values.Encode` (the Go map has one value per key). -/
def sortByKey : List (ByteStr × ByteStr) → List (ByteStr × ByteStr)
  | [] => []
  | p :: ps => insertByKey p (sortByKey ps)

/-- One `key=value` component of the encoded query. -/
def encPair (p : ByteStr × ByteStr) : ByteStr :=
  queryEscape p.1 ++ [61] ++ queryEscape p.2

/-- Components joined with ampersands (byte 38). -/
def ampJoin : List ByteStr → ByteStr
  | [] => []
  | [x] => x
  | x :: xs => x ++ [38] ++ ampJoin xs

/-- `url.Values.Encode` of the params mapping. -/
def encodeQuery (params : List (ByteStr × ByteStr)) : ByteStr :=
  ampJoin ((sortByKey params).map encPair)

/-! The generic table operations and the shared request executor. -/

/-- The request `create` builds: `POST {base}/api/now/v2/table/{table}` with body. -/
def ServiceNowClient.createReq (c : ServiceNowClient) (table : ByteStr)
    (body : BodyBytes) : Request :=
  { method := strB "POST", urlPath := tableAPI c.baseURL table, rawQuery := []
  , headers := [], body := some body }

/-- The request `get` builds: `GET {base}/api/now/v2/table/{table}` with the params
encoded into the raw query. -/
def ServiceNowClient.getReq (c : ServiceNowClient) (table : ByteStr)
    (params : List (ByteStr × ByteStr)) : Request :=
  { method := strB "GET", urlPath := tableAPI c.baseURL table
  , rawQuery := encodeQuery params, headers := [], body := none }

/-- The request `update` builds:
`PUT {base}/api/now/v2/table/{table}/{sysID}` with body. -/
def ServiceNowClient.updateReq (c : ServiceNowClient) (table : ByteStr)
    (body : BodyBytes) (sysID : ByteStr) : Request :=
  { method := strB "PUT", urlPath := tableAPI c.baseURL table ++ strB "/" ++ sysID
  , rawQuery := [], headers := [], body := some body }

/-- The header-setting done at the top of `doRequest`. -/
def ServiceNowClient.snReq (c : ServiceNowClient) (req : Request) : Request :=
  { req with headers :=
      [(strB "Content-Type", strB "application/json"),
       (strB "Authorization", c.authHeader)] }

/-- `doRequest`, with each return site translated directly; the second component
counts how many times the response body is closed.  In the source the
`defer resp.Body.Close()` is registered only after the status >= 400 early return,
so the count is 0 on the transport failure and status >= 400 paths and 1 on the
paths that reach the read. -/
def ServiceNowClient.doRequest (c : ServiceNowClient) (transport : Transport)
    (req : Request) : (Option BodyBytes × Option SnError) × Nat :=
  match transport (c.snReq req) with
  | .failure msg => ((none, some (.transport msg)), 0)
  | .response resp =>
    if 400 ≤ resp.statusCode then ((none, some (.remote resp.statusCode)), 0)
    else
      match resp.readResult with
      | .error msg => ((none, some (.bodyRead msg)), 1)
      | .ok b => ((some b, none), 1)

/-- `create`. -/
def ServiceNowClient.create (c : ServiceNowClient) (transport : Transport)
    (table : ByteStr) (body : BodyBytes) : Option BodyBytes × Option SnError :=
  (c.doRequest transport (c.createReq table body)).1

/-- `get`. -/
def ServiceNowClient.get (c : ServiceNowClient) (transport : Transport)
    (table : ByteStr) (params : List (ByteStr × ByteStr)) :
    Option BodyBytes × Option SnError :=
  (c.doRequest transport (c.getReq table params)).1

/-- `update`. -/
def ServiceNowClient.update (c : ServiceNowClient) (transport : Transport)
    (table : ByteStr) (body : BodyBytes) (sysID : ByteStr) :
    Option BodyBytes × Option SnError :=
  (c.doRequest transport (c.updateReq table body sysID)).1

/-! The typed public operations.  The Go `(value, error)` returns are pairs of
options; the unreachable nil-body-with-nil-error path behaves as `json.Unmarshal`
of a nil byte slice does in Go (an unexpected-end error). -/

/-- `CreateIncident`. -/
def ServiceNowClient.CreateIncident (c : ServiceNowClient) (transport : Transport)
    (incident : Incident) : Option Incident × Option SnError :=
  match marshalIncident incident with
  | .error msg => (none, some (.marshal msg))
  | .ok postBody =>
    match c.create transport (strB "incident") (.wellFormed postBody) with
    | (_, some err) => (none, some err)
    | (response, none) =>
      match response with
      | none => (none, some (.unmarshal "unexpected end of JSON input"))
      | some b =>
        match unmarshalIncidentResponse b with
        | .error msg => (none, some (.unmarshal msg))
        | .ok ir => (some ir.result, none)

/-- `GetIncidents`; the Go nil `[]Incident` on the error paths is the empty list. -/
def ServiceNowClient.GetIncidents (c : ServiceNowClient) (transport : Transport)
    (params : List (ByteStr × ByteStr)) : List Incident × Option SnError :=
  match c.get transport (strB "incident") params with
  | (_, some err) => ([], some err)
  | (response, none) =>
    match response with
    | none => ([], some (.unmarshal "unexpected end of JSON input"))
    | some b =>
      match unmarshalIncidentsResponse b with
      | .error msg => ([], some (.unmarshal msg))
      | .ok ir => (ir.result, none)

/-- `UpdateIncident`. -/
def ServiceNowClient.UpdateIncident (c : ServiceNowClient) (transport : Transport)
    (incident : Incident) : Option Incident × Option SnError :=
  match marshalIncident incident with
  | .error msg => (none, some (.marshal msg))
  | .ok postBody =>
    match c.update transport (strB "incident") (.wellFormed postBody) incident.sysID with
    | (_, some err) => (none, some err)
    | (response, none) =>
      match response with
      | none => (none, some (.unmarshal "unexpected end of JSON input"))
      | some b =>
        match unmarshalIncidentResponse b with
        | .error msg => (none, some (.unmarshal msg))
        | .ok ir => (some ir.result, none)

/-! Concrete fixtures shared by witnesses and counterexamples. -/

/-- A concrete client value. -/
def cAcme : ServiceNowClient :=
  { baseURL := strB "https://acme.service-now.com"
  , authHeader := strB "Basic Ym9iOnNlY3JldA==" }

/-- A concrete request value. -/
def reqNull : Request :=
  { method := strB "GET", urlPath := [], rawQuery := [], headers := [], body := none }

/-- `json.Marshal` of the zero `Incident`: only the fields without `omitempty`
appear. -/
def marshalledZero : Json :=
  Json.obj [(strB "assignment_group", Json.null), (strB "comments", Json.str []),
            (strB "description", Json.str []), (strB "u_other_reference_1", Json.str []),
            (strB "short_description", Json.str [])]

/-- Claim C1 (amended): `NewServiceNowClient` errors exactly when at least one
argument is empty and succeeds for all non-empty arguments; the constructed client's
base address is `https://{instanceHost}.service-now.com` and its Authorization header
is `Basic ` followed by the base64url (URL-safe alphabet, padded) encoding of
`userName:password`. -/
theorem newServiceNowClient_contract (i u p : ByteStr) :
    ((NewServiceNowClient i u p).2 = none ↔ (i ≠ [] ∧ u ≠ [] ∧ p ≠ []))
    ∧ ((NewServiceNowClient i u p).1 = none ↔ (i = [] ∨ u = [] ∨ p = []))
    ∧ (∀ c, (NewServiceNowClient i u p).1 = some c →
        c.baseURL = strB "https://" ++ i ++ strB ".service-now.com"
        ∧ c.authHeader = strB "Basic " ++ base64URLEncode (u ++ strB ":" ++ p)) := by
  by_cases hi : i = [] <;> by_cases hu : u = [] <;> by_cases hp : p = [] <;>
    simp [NewServiceNowClient, serviceNowBaseURL, hi, hu, hp]

/-- Claim C1 witness: the contract applied at instance `acme`, user `bob`,
password `secret`. -/
theorem newServiceNowClient_contract_witness :
    ∃ c, (NewServiceNowClient (strB "acme") (strB "bob") (strB "secret")).1 = some c
      ∧ c.baseURL = strB "https://" ++ strB "acme" ++ strB ".service-now.com"
      ∧ c.authHeader = strB "Basic " ++ base64URLEncode (strB "bob" ++ strB ":" ++ strB "secret") := by
  have h := (newServiceNowClient_contract (strB "acme") (strB "bob") (strB "secret")).2.2
  exact ⟨_, rfl, h _ rfl⟩

/-- Claim C1 counterexample: for userName `a` and password `~~~` the constructed
Authorization header (URL-safe base64, `Basic YTp-fn4=`) differs from `Basic `
followed by the standard base64 encoding of `a:~~~` (`Basic YTp+fn4=`), so the
header is not the (standard) base64 encoding the claim states for every userName
and password. -/
theorem newClient_auth_not_std_base64 :
    ∃ c, (NewServiceNowClient (strB "acme") (strB "a") (strB "~~~")).1 = some c
      ∧ c.authHeader ≠ strB "Basic " ++ base64StdEncode (strB "a" ++ strB ":" ++ strB "~~~") :=
  ⟨_, rfl, by decide⟩

/-- Claim C2: on any received response with HTTP status >= 400, `doRequest` fails
with the error carrying that numeric status code, the response body is discarded and
never parsed (the conclusion holds for every read outcome `rd`), and
`CreateIncident`, `GetIncidents` and `UpdateIncident` return an unset result with
that same error. -/
theorem remote_error_on_http_ge_400 (c : ServiceNowClient) (req : Request) (st : Nat)
    (rd : Except String BodyBytes) (inc : Incident) (pb : Json)
    (params : List (ByteStr × ByteStr)) (hst : 400 ≤ st)
    (hm : marshalIncident inc = .ok pb) :
    c.doRequest (fun _ => .response ⟨st, rd⟩) req = ((none, some (.remote st)), 0)
    ∧ c.CreateIncident (fun _ => .response ⟨st, rd⟩) inc = (none, some (.remote st))
    ∧ c.GetIncidents (fun _ => .response ⟨st, rd⟩) params = ([], some (.remote st))
    ∧ c.UpdateIncident (fun _ => .response ⟨st, rd⟩) inc = (none, some (.remote st)) := by
  have hdo : ∀ r : Request,
      c.doRequest (fun _ => .response ⟨st, rd⟩) r = ((none, some (.remote st)), 0) := by
    intro r
    simp [ServiceNowClient.doRequest, hst]
  refine ⟨hdo req, ?_, ?_, ?_⟩
  · simp [ServiceNowClient.CreateIncident, ServiceNowClient.create, hm, hdo]
  · simp [ServiceNowClient.GetIncidents, ServiceNowClient.get, hdo]
  · simp [ServiceNowClient.UpdateIncident, ServiceNowClient.update, hm, hdo]

/-- Claim C2 witness: the theorem applied at status 500 with a well-formed body. -/
theorem remote_error_on_http_ge_400_witness :
    (400 ≤ 500 ∧ marshalIncident zeroIncident = .ok marshalledZero)
    ∧ cAcme.CreateIncident (fun _ => .response ⟨500, .ok (.wellFormed Json.null)⟩)
        zeroIncident = (none, some (.remote 500)) := by
  have h := remote_error_on_http_ge_400 cAcme reqNull 500 (.ok (.wellFormed Json.null))
      zeroIncident marshalledZero [] (by decide) (by rfl)
  exact ⟨⟨by decide, by rfl⟩, h.2.1⟩

/-- Claim C3 counterexample: on a received response with status 400 the body is
closed zero times, not exactly once: the deferred close in the source is registered
only after the status >= 400 early return. -/
theorem doRequest_body_not_closed_on_400 :
    (cAcme.doRequest (fun _ => .response ⟨400, .ok (.wellFormed Json.null)⟩) reqNull).2 ≠ 1 := by
  decide

/-- Claim C3 (amended): when an HTTP response is received, the body stream is closed
exactly once on every path with status < 400 regardless of whether reading the body
succeeds or fails, and zero times on the status >= 400 path. -/
theorem doRequest_close_count (c : ServiceNowClient) (req : Request) (st : Nat)
    (rd : Except String BodyBytes) :
    (c.doRequest (fun _ => .response ⟨st, rd⟩) req).2 = if 400 ≤ st then 0 else 1 := by
  cases rd <;> simp only [ServiceNowClient.doRequest] <;> split <;> rfl

/-! Claim C4: the omitempty-tagged fields. -/

/-- All `omitempty`-tagged (optional) fields of an `Incident` are at their zero
value. -/
def OptionalUnset (inc : Incident) : Prop :=
  inc.contactType = [] ∧ inc.callerID = none ∧ inc.impact = [] ∧ inc.number = []
    ∧ inc.priority = [] ∧ inc.state = [] ∧ inc.sysID = [] ∧ inc.urgency = []

/-- The wire names of the `omitempty`-tagged fields of `Incident`. -/
def optionalKeys : List ByteStr :=
  [strB "contact_type", strB "caller_id", strB "impact", strB "number",
   strB "priority", strB "state", strB "sys_id", strB "urgency"]

/-- Applying an object member whose name matches no optional wire name (exactly or
case-folded, i.e. the decoder does not map it to an optional field) never changes
the optional fields. -/
theorem setIncidentField_preserves_optional {inc inc' : Incident} {k : ByteStr}
    {v : Json} (hk : ∀ t ∈ optionalKeys, jsonKeyFold t k = false)
    (hset : setIncidentField inc k v = .ok inc') :
    inc'.contactType = inc.contactType ∧ inc'.callerID = inc.callerID
    ∧ inc'.impact = inc.impact ∧ inc'.number = inc.number
    ∧ inc'.priority = inc.priority ∧ inc'.state = inc.state
    ∧ inc'.sysID = inc.sysID ∧ inc'.urgency = inc.urgency := by
  have hne : ∀ s : String, strB s ∈ optionalKeys → ¬(jsonKeyFold (strB s) k = true) := by
    intro s hs e
    rw [hk (strB s) hs] at e
    exact Bool.false_ne_true e
  unfold setIncidentField at hset
  rw [if_neg (hne "contact_type" (by decide)), if_neg (hne "caller_id" (by decide)),
      if_neg (hne "impact" (by decide)), if_neg (hne "number" (by decide)),
      if_neg (hne "priority" (by decide)), if_neg (hne "state" (by decide)),
      if_neg (hne "sys_id" (by decide)), if_neg (hne "urgency" (by decide))] at hset
  by_cases e1 : jsonKeyFold (strB "assignment_group") k = true
  · rw [if_pos e1] at hset
    have h' : { inc with assignmentGroup := decodeIface v } = inc' := by
      injection hset
    subst h'
    exact ⟨rfl, rfl, rfl, rfl, rfl, rfl, rfl, rfl⟩
  · rw [if_neg e1] at hset
    by_cases e2 : jsonKeyFold (strB "comments") k = true
    · rw [if_pos e2] at hset
      cases hv : decodeString v inc.comments with
      | error e =>
        rw [hv] at hset
        exact Except.noConfusion
          (show (Except.error e : Except String Incident) = .ok inc' from hset)
      | ok s =>
        rw [hv] at hset
        have h' : { inc with comments := s } = inc' := by
          injection (show (Except.ok { inc with comments := s } :
            Except String Incident) = .ok inc' from hset)
        subst h'
        exact ⟨rfl, rfl, rfl, rfl, rfl, rfl, rfl, rfl⟩
    · rw [if_neg e2] at hset
      by_cases e3 : jsonKeyFold (strB "description") k = true
      · rw [if_pos e3] at hset
        cases hv : decodeString v inc.description with
        | error e =>
          rw [hv] at hset
          exact Except.noConfusion
            (show (Except.error e : Except String Incident) = .ok inc' from hset)
        | ok s =>
          rw [hv] at hset
          have h' : { inc with description := s } = inc' := by
            injection (show (Except.ok { inc with description := s } :
              Except String Incident) = .ok inc' from hset)
          subst h'
          exact ⟨rfl, rfl, rfl, rfl, rfl, rfl, rfl, rfl⟩
      · rw [if_neg e3] at hset
        by_cases e4 : jsonKeyFold (strB "u_other_reference_1") k = true
        · rw [if_pos e4] at hset
          cases hv : decodeString v inc.groupKey with
          | error e =>
            rw [hv] at hset
            exact Except.noConfusion
              (show (Except.error e : Except String Incident) = .ok inc' from hset)
          | ok s =>
            rw [hv] at hset
            have h' : { inc with groupKey := s } = inc' := by
              injection (show (Except.ok { inc with groupKey := s } :
                Except String Incident) = .ok inc' from hset)
            subst h'
            exact ⟨rfl, rfl, rfl, rfl, rfl, rfl, rfl, rfl⟩
        · rw [if_neg e4] at hset
          by_cases e5 : jsonKeyFold (strB "short_description") k = true
          · rw [if_pos e5] at hset
            cases hv : decodeString v inc.shortDescription with
            | error e =>
              rw [hv] at hset
              exact Except.noConfusion
                (show (Except.error e : Except String Incident) = .ok inc' from hset)
            | ok s =>
              rw [hv] at hset
              have h' : { inc with shortDescription := s } = inc' := by
                injection (show (Except.ok { inc with shortDescription := s } :
                  Except String Incident) = .ok inc' from hset)
              subst h'
              exact ⟨rfl, rfl, rfl, rfl, rfl, rfl, rfl, rfl⟩
          · rw [if_neg e5] at hset
            have h' : inc = inc' := by injection hset
            subst h'
            exact ⟨rfl, rfl, rfl, rfl, rfl, rfl, rfl, rfl⟩

/-- Folding object members none of whose names the decoder maps to an optional
field preserves `OptionalUnset`. -/
theorem foldl_setIncidentField_optional (members : List (ByteStr × Json))
    (hmem : ∀ kv ∈ members, ∀ t ∈ optionalKeys, jsonKeyFold t kv.1 = false) :
    ∀ start res : Incident,
      members.foldlM (fun acc kv => setIncidentField acc kv.1 kv.2) start = .ok res →
      OptionalUnset start → OptionalUnset res := by
  induction members with
  | nil =>
    intro start res hdec hstart
    have h : start = res := by
      injection (show (Except.ok start : Except String Incident) = .ok res from hdec)
    exact h ▸ hstart
  | cons kv rest ih =>
    intro start res hdec hstart
    rw [List.foldlM_cons] at hdec
    cases hset : setIncidentField start kv.1 kv.2 with
    | error e =>
      rw [hset] at hdec
      exact Except.noConfusion
        (show (Except.error e : Except String Incident) = .ok res from hdec)
    | ok mid =>
      rw [hset] at hdec
      have hdec' :
          rest.foldlM (fun acc kv => setIncidentField acc kv.1 kv.2) mid = .ok res := hdec
      have hpres := setIncidentField_preserves_optional
        (hmem kv (List.mem_cons_self kv rest)) hset
      obtain ⟨a1, a2, a3, a4, a5, a6, a7, a8⟩ := hstart
      obtain ⟨p1, p2, p3, p4, p5, p6, p7, p8⟩ := hpres
      exact ih (fun kv' h => hmem kv' (List.mem_cons_of_mem _ h)) mid res hdec'
        ⟨p1.trans a1, p2.trans a2, p3.trans a3, p4.trans a4,
         p5.trans a5, p6.trans a6, p7.trans a7, p8.trans a8⟩

/-- Claim C4: for every `Incident` whose optional (`omitempty`) fields are all
unset, JSON encoding omits those members from the serialized object entirely
(absent, not null and not empty string), the encoded object decodes back without
error with the optional fields still at their zero values, and decoding any object
lacking those fields — none of its member names is mapped to an optional field by
the decoder's exact-or-case-folded matching — leaves every optional field at its
zero value rather than producing an error about them. -/
theorem optional_fields_omitted_and_defaulted (inc : Incident) (h : OptionalUnset inc) :
    (∃ members, marshalIncident inc = .ok (Json.obj members)
      ∧ (∀ kv ∈ members, ∀ t ∈ optionalKeys, jsonKeyFold t kv.1 = false)
      ∧ ∃ res, decodeIncident zeroIncident (Json.obj members) = .ok res
          ∧ OptionalUnset res)
    ∧ ∀ members, (∀ kv ∈ members, ∀ t ∈ optionalKeys, jsonKeyFold t kv.1 = false) →
        ∀ res, decodeIncident zeroIncident (Json.obj members) = .ok res →
          OptionalUnset res := by
  constructor
  · obtain ⟨ag, ct, ci, cm, de, gk, im, nu, pr, sd, st2, sy, ur⟩ := inc
    obtain ⟨h1, h2, h3, h4, h5, h6, h7, h8⟩ := h
    obtain rfl : ct = [] := h1
    obtain rfl : ci = none := h2
    obtain rfl : im = [] := h3
    obtain rfl : nu = [] := h4
    obtain rfl : pr = [] := h5
    obtain rfl : st2 = [] := h6
    obtain rfl : sy = [] := h7
    obtain rfl : ur = [] := h8
    refine ⟨[(strB "assignment_group", linkedToJson ag),
             (strB "comments", Json.str cm), (strB "description", Json.str de),
             (strB "u_other_reference_1", Json.str gk),
             (strB "short_description", Json.str sd)], rfl, ?_, ?_⟩
    · intro kv hkv
      simp only [List.mem_cons, List.not_mem_nil, or_false] at hkv
      rcases hkv with rfl | rfl | rfl | rfl | rfl
      · exact (by decide : ∀ t ∈ optionalKeys, jsonKeyFold t (strB "assignment_group") = false)
      · exact (by decide : ∀ t ∈ optionalKeys, jsonKeyFold t (strB "comments") = false)
      · exact (by decide : ∀ t ∈ optionalKeys, jsonKeyFold t (strB "description") = false)
      · exact (by decide : ∀ t ∈ optionalKeys, jsonKeyFold t (strB "u_other_reference_1") = false)
      · exact (by decide : ∀ t ∈ optionalKeys, jsonKeyFold t (strB "short_description") = false)
    · exact ⟨_, rfl, ⟨rfl, rfl, rfl, rfl, rfl, rfl, rfl, rfl⟩⟩
  · exact fun members hmem res hdec =>
      foldl_setIncidentField_optional members hmem zeroIncident res hdec
        ⟨rfl, rfl, rfl, rfl, rfl, rfl, rfl, rfl⟩

/-- Claim C4 witness: the theorem applied at the zero incident. -/
theorem optional_fields_omitted_and_defaulted_witness :
    OptionalUnset zeroIncident
    ∧ ∃ members, marshalIncident zeroIncident = .ok (Json.obj members)
        ∧ ∀ kv ∈ members, ∀ t ∈ optionalKeys, jsonKeyFold t kv.1 = false := by
  have h := optional_fields_omitted_and_defaulted zeroIncident
      ⟨rfl, rfl, rfl, rfl, rfl, rfl, rfl, rfl⟩
  obtain ⟨⟨members, hm, hk, _⟩, _⟩ := h
  exact ⟨⟨rfl, rfl, rfl, rfl, rfl, rfl, rfl, rfl⟩, members, hm, hk⟩

/-! Claim C5: the numeric-as-text fields. -/

/-- Claim C5 counterexample: a remote impact value arriving as the quoted JSON string
`"3"` decodes successfully (storing the text `3`), but re-encoding emits the
unquoted JSON number `3`, which is not the value exactly as provided. -/
theorem quoted_number_not_reencoded_quoted :
    decodeIncident zeroIncident (Json.obj [(strB "impact", Json.str (strB "3"))]) =
      .ok { zeroIncident with impact := strB "3" }
    ∧ marshalIncident { zeroIncident with impact := strB "3" } =
      .ok (Json.obj [(strB "assignment_group", Json.null), (strB "comments", Json.str []),
        (strB "description", Json.str []), (strB "u_other_reference_1", Json.str []),
        (strB "impact", Json.num (strB "3")), (strB "short_description", Json.str [])])
    ∧ Json.num (strB "3") ≠ Json.str (strB "3") :=
  ⟨rfl, rfl, fun h => Json.noConfusion h⟩

/-- Claim C5 (amended): every non-empty valid numeric text provided by the remote
system — as a JSON number or quoted as a JSON string — decodes into the
Impact/State/Urgency (`json.Number`) fields successfully with its text preserved
exactly and never interpreted as an integer; re-encoding emits that exact text as an
unquoted JSON number, so quoted values re-encode unquoted. -/
theorem number_fields_text_roundtrip (s old key : ByteStr) (hne : s ≠ [])
    (hvalid : isValidNumber s = true) :
    decodeNumber (Json.num s) old = .ok s
    ∧ decodeNumber (Json.str s) old = .ok s
    ∧ numField key s = .ok [(key, Json.num s)] := by
  refine ⟨rfl, ?_, ?_⟩
  · simp [decodeNumber, hvalid]
  · simp [numField, hne, hvalid]

/-- Claim C5 witness: the numeric text 3 for the impact field. -/
theorem number_fields_text_roundtrip_witness :
    (strB "3" ≠ [] ∧ isValidNumber (strB "3") = true)
    ∧ decodeNumber (Json.str (strB "3")) [] = .ok (strB "3")
    ∧ numField (strB "impact") (strB "3") = .ok [(strB "impact", Json.num (strB "3"))] := by
  have h := number_fields_text_roundtrip (strB "3") [] (strB "impact")
      (by decide) (by decide)
  exact ⟨⟨by decide, by decide⟩, h.2.1, h.2.2⟩

/-! Claim C6: all-or-nothing results. -/

/-- The result component of `doRequest` always has exactly one of payload and error
set. -/
theorem doRequest_shape (c : ServiceNowClient) (t : Transport) (req : Request) :
    (∃ b, (c.doRequest t req).1 = (some b, none))
    ∨ (∃ e, (c.doRequest t req).1 = (none, some e)) := by
  cases htr : t (c.snReq req) with
  | failure msg =>
    exact Or.inr ⟨SnError.transport msg, by simp [ServiceNowClient.doRequest, htr]⟩
  | response resp =>
    by_cases hst : 400 ≤ resp.statusCode
    · exact Or.inr ⟨SnError.remote resp.statusCode,
        by simp [ServiceNowClient.doRequest, htr, hst]⟩
    · cases hrd : resp.readResult with
      | error msg =>
        exact Or.inr ⟨SnError.bodyRead msg,
          by simp [ServiceNowClient.doRequest, htr, hst, hrd]⟩
      | ok b =>
        exact Or.inl ⟨b, by simp [ServiceNowClient.doRequest, htr, hst, hrd]⟩

/-- Claim C6: every call of the three public operations either fully succeeds —
`CreateIncident` and `UpdateIncident` with a set (non-nil) pointer, `GetIncidents`
with the decoded sequence — and no error, or returns an error with the output
pointer unset (nil slice for `GetIncidents`); no call returns both a set output and
an error. -/
theorem operations_all_or_nothing (c : ServiceNowClient) (t : Transport)
    (inc incU : Incident) (params : List (ByteStr × ByteStr)) :
    ((∃ v, c.CreateIncident t inc = (some v, none))
      ∨ (∃ e, c.CreateIncident t inc = (none, some e)))
    ∧ ((∃ v, c.UpdateIncident t incU = (some v, none))
      ∨ (∃ e, c.UpdateIncident t incU = (none, some e)))
    ∧ ((∃ xs, c.GetIncidents t params = (xs, none))
      ∨ (∃ e, c.GetIncidents t params = ([], some e))) := by
  refine ⟨?_, ?_, ?_⟩
  · cases hm : marshalIncident inc with
    | error msg =>
      exact Or.inr ⟨SnError.marshal msg, by simp [ServiceNowClient.CreateIncident, hm]⟩
    | ok pb =>
      rcases doRequest_shape c t (c.createReq (strB "incident") (.wellFormed pb)) with
        ⟨b, hb⟩ | ⟨e, he⟩
      · cases hu : unmarshalIncidentResponse b with
        | error msg =>
          exact Or.inr ⟨SnError.unmarshal msg, by
            simp [ServiceNowClient.CreateIncident, ServiceNowClient.create, hm, hb, hu]⟩
        | ok ir =>
          exact Or.inl ⟨ir.result, by
            simp [ServiceNowClient.CreateIncident, ServiceNowClient.create, hm, hb, hu]⟩
      · exact Or.inr ⟨e, by
          simp [ServiceNowClient.CreateIncident, ServiceNowClient.create, hm, he]⟩
  · cases hm : marshalIncident incU with
    | error msg =>
      exact Or.inr ⟨SnError.marshal msg, by simp [ServiceNowClient.UpdateIncident, hm]⟩
    | ok pb =>
      rcases doRequest_shape c t
          (c.updateReq (strB "incident") (.wellFormed pb) incU.sysID) with
        ⟨b, hb⟩ | ⟨e, he⟩
      · cases hu : unmarshalIncidentResponse b with
        | error msg =>
          exact Or.inr ⟨SnError.unmarshal msg, by
            simp [ServiceNowClient.UpdateIncident, ServiceNowClient.update, hm, hb, hu]⟩
        | ok ir =>
          exact Or.inl ⟨ir.result, by
            simp [ServiceNowClient.UpdateIncident, ServiceNowClient.update, hm, hb, hu]⟩
      · exact Or.inr ⟨e, by
          simp [ServiceNowClient.UpdateIncident, ServiceNowClient.update, hm, he]⟩
  · rcases doRequest_shape c t (c.getReq (strB "incident") params) with
      ⟨b, hb⟩ | ⟨e, he⟩
    · cases hu : unmarshalIncidentsResponse b with
      | error msg =>
        exact Or.inr ⟨SnError.unmarshal msg, by
          simp [ServiceNowClient.GetIncidents, ServiceNowClient.get, hb, hu]⟩
      | ok ir =>
        exact Or.inl ⟨ir.result, by
          simp [ServiceNowClient.GetIncidents, ServiceNowClient.get, hb, hu]⟩
    · exact Or.inr ⟨e, by
        simp [ServiceNowClient.GetIncidents, ServiceNowClient.get, he]⟩

/-! Claims C7 and C9: the update request path. -/

/-- Regrouping the update URL interpolation into the path the claims spell out. -/
theorem tableAPI_update_path (base sys : ByteStr) :
    tableAPI base (strB "incident") ++ strB "/" ++ sys =
      base ++ strB "/api/now/v2/table/incident/" ++ sys := by
  have h : (strB "/api/now/v2/table/" ++ (strB "incident" ++ strB "/") : ByteStr) =
      strB "/api/now/v2/table/incident/" := by decide
  unfold tableAPI
  rw [List.append_assoc (base ++ strB "/api/now/v2/table/") (strB "incident") (strB "/"),
      List.append_assoc base (strB "/api/now/v2/table/") (strB "incident" ++ strB "/"), h]

/-- The update URL ends in `/incident/{sysID}`. -/
theorem update_path_suffix (base sys : ByteStr) :
    (strB "/incident/" ++ sys) <:+ (tableAPI base (strB "incident") ++ strB "/" ++ sys) := by
  refine ⟨base ++ strB "/api/now/v2/table", ?_⟩
  rw [tableAPI_update_path]
  have h : (strB "/api/now/v2/table" ++ strB "/incident/" : ByteStr) =
      strB "/api/now/v2/table/incident/" := by decide
  calc (base ++ strB "/api/now/v2/table") ++ (strB "/incident/" ++ sys)
      = base ++ ((strB "/api/now/v2/table" ++ strB "/incident/") ++ sys) := by
        rw [List.append_assoc base (strB "/api/now/v2/table") (strB "/incident/" ++ sys),
          ← List.append_assoc (strB "/api/now/v2/table") (strB "/incident/") sys]
    _ = base ++ (strB "/api/now/v2/table/incident/" ++ sys) := by rw [h]
    _ = base ++ strB "/api/now/v2/table/incident/" ++ sys := by
        rw [List.append_assoc]

/-- Claim C7: `UpdateIncident` serializes the full incident and issues a PUT request
whose URL is `{base}/api/now/v2/table/incident/{SysID}` — a path ending in
`/incident/{SysID}`; the only request it consults the transport with is that one
(two transports agreeing on it give identical results). -/
theorem updateIncident_put_path (c : ServiceNowClient) (inc : Incident) (pb : Json)
    (t1 t2 : Transport) (hm : marshalIncident inc = .ok pb)
    (hagree : t1 (c.snReq (c.updateReq (strB "incident") (.wellFormed pb) inc.sysID)) =
      t2 (c.snReq (c.updateReq (strB "incident") (.wellFormed pb) inc.sysID))) :
    (c.updateReq (strB "incident") (.wellFormed pb) inc.sysID).method = strB "PUT"
    ∧ (c.updateReq (strB "incident") (.wellFormed pb) inc.sysID).urlPath =
        c.baseURL ++ strB "/api/now/v2/table/incident/" ++ inc.sysID
    ∧ (strB "/incident/" ++ inc.sysID) <:+
        (c.updateReq (strB "incident") (.wellFormed pb) inc.sysID).urlPath
    ∧ c.UpdateIncident t1 inc = c.UpdateIncident t2 inc := by
  refine ⟨rfl, tableAPI_update_path c.baseURL inc.sysID,
    update_path_suffix c.baseURL inc.sysID, ?_⟩
  simp only [ServiceNowClient.UpdateIncident, ServiceNowClient.update,
    ServiceNowClient.doRequest, hm, hagree]

/-- An incident with a set SysID, for witnesses. -/
def incAbc : Incident := { zeroIncident with sysID := strB "abc123" }

/-- `json.Marshal` of `incAbc`. -/
def marshalledAbc : Json :=
  Json.obj [(strB "assignment_group", Json.null), (strB "comments", Json.str []),
            (strB "description", Json.str []), (strB "u_other_reference_1", Json.str []),
            (strB "short_description", Json.str []),
            (strB "sys_id", Json.str (strB "abc123"))]

/-- Claim C7 witness: the theorem applied at a concrete incident with SysID
`abc123`. -/
theorem updateIncident_put_path_witness :
    marshalIncident incAbc = .ok marshalledAbc
    ∧ (cAcme.updateReq (strB "incident") (.wellFormed marshalledAbc) incAbc.sysID).urlPath =
        cAcme.baseURL ++ strB "/api/now/v2/table/incident/" ++ incAbc.sysID
    ∧ (strB "/incident/" ++ incAbc.sysID) <:+
        (cAcme.updateReq (strB "incident") (.wellFormed marshalledAbc) incAbc.sysID).urlPath := by
  have h := updateIncident_put_path cAcme incAbc marshalledAbc
      (fun _ => .failure "x") (fun _ => .failure "x") (by rfl) rfl
  exact ⟨by rfl, h.2.1, h.2.2.1⟩

/-- Claim C9: `UpdateIncident` performs no local SysID validation: with an empty
SysID it still serializes the incident and issues the PUT — what comes back is the
transport's outcome, not a local validation error — and the request path ends in
`/incident/` with an empty record-id segment. -/
theorem updateIncident_empty_sysid (c : ServiceNowClient) (inc : Incident) (pb : Json)
    (m : String) (hsys : inc.sysID = []) (hm : marshalIncident inc = .ok pb) :
    (c.updateReq (strB "incident") (.wellFormed pb) inc.sysID).urlPath =
      c.baseURL ++ strB "/api/now/v2/table/incident/"
    ∧ (strB "/incident/") <:+
        (c.updateReq (strB "incident") (.wellFormed pb) inc.sysID).urlPath
    ∧ c.UpdateIncident (fun _ => .failure m) inc = (none, some (.transport m)) := by
  refine ⟨?_, ?_, ?_⟩
  · have h := tableAPI_update_path c.baseURL []
    rw [List.append_nil, List.append_nil] at h
    show tableAPI c.baseURL (strB "incident") ++ strB "/" ++ inc.sysID = _
    rw [hsys, List.append_nil]
    exact h
  · have h2 : (strB "/incident/") <:+ (tableAPI c.baseURL (strB "incident") ++ strB "/") := by
      simpa using update_path_suffix c.baseURL []
    show (strB "/incident/") <:+
      tableAPI c.baseURL (strB "incident") ++ strB "/" ++ inc.sysID
    rw [hsys, List.append_nil]
    exact h2
  · simp only [ServiceNowClient.UpdateIncident, ServiceNowClient.update,
      ServiceNowClient.doRequest, hm]

/-- Claim C9 witness: the theorem applied at the zero incident (whose SysID is
empty). -/
theorem updateIncident_empty_sysid_witness :
    (zeroIncident.sysID = [] ∧ marshalIncident zeroIncident = .ok marshalledZero)
    ∧ cAcme.UpdateIncident (fun _ => .failure "no route to host") zeroIncident =
        (none, some (.transport "no route to host")) := by
  have h := updateIncident_empty_sysid cAcme zeroIncident marshalledZero
      "no route to host" rfl (by rfl)
  exact ⟨⟨rfl, by rfl⟩, h.2.2⟩

/-! Claim C10: bodies without a result member. -/

/-- Claim C10 counterexample: the body `5` is syntactically valid JSON in which the
result member is absent, yet decoding fails (a JSON number cannot decode into the
response envelope struct), so `CreateIncident` returns an error, not a zero-valued
record. -/
theorem valid_json_nonobject_decode_fails :
    cAcme.CreateIncident
        (fun _ => .response ⟨200, .ok (.wellFormed (Json.num (strB "5")))⟩) zeroIncident =
      (none, some (.unmarshal
        "json: cannot unmarshal value into Go value of type IncidentResponse")) := rfl

/-- Folding response-envelope members none of whose names the decoder maps to
`result` (exactly or case-folded) returns the initial accumulator. -/
theorem foldl_result_skip {β : Type} (g : β → Json → Except String β)
    (members : List (ByteStr × Json))
    (hres : ∀ kv ∈ members, jsonKeyFold (strB "result") kv.1 = false)
    (init : β) :
    members.foldlM
      (fun acc kv =>
        if jsonKeyFold (strB "result") kv.1 then g acc kv.2 else .ok acc) init =
      .ok init := by
  induction members generalizing init with
  | nil => rfl
  | cons kv rest ih =>
    simp only [List.foldlM_cons]
    have hcond : ¬(jsonKeyFold (strB "result") kv.1 = true) := by
      rw [hres kv (List.mem_cons_self kv rest)]
      exact Bool.false_ne_true
    rw [if_neg hcond]
    exact ih (fun kv' h => hres kv' (List.mem_cons_of_mem _ h)) init

/-- Claim C10 (amended): for every response body that is a syntactically valid JSON
object in which the `result` member is absent — no member name is mapped to
`result` by the decoder's exact-or-case-folded matching — or null, decoding
succeeds rather than erroring: `CreateIncident` and `UpdateIncident` return a set
pointer to a zero-valued `Incident` and `GetIncidents` returns the nil sequence,
each with no error. -/
theorem absent_result_decodes_to_defaults (c : ServiceNowClient) (st : Nat)
    (members : List (ByteStr × Json)) (inc : Incident) (pb : Json)
    (params : List (ByteStr × ByteStr)) (hst : st < 400)
    (hres : ∀ kv ∈ members, jsonKeyFold (strB "result") kv.1 = false)
    (hm : marshalIncident inc = .ok pb) :
    decodeIncidentResponse (Json.obj members) = .ok ⟨zeroIncident⟩
    ∧ decodeIncidentsResponse (Json.obj members) = .ok ⟨[]⟩
    ∧ decodeIncidentResponse (Json.obj (members ++ [(strB "result", Json.null)])) =
        .ok ⟨zeroIncident⟩
    ∧ decodeIncidentsResponse (Json.obj (members ++ [(strB "result", Json.null)])) =
        .ok ⟨[]⟩
    ∧ c.CreateIncident
        (fun _ => .response ⟨st, .ok (.wellFormed (Json.obj members))⟩) inc =
        (some zeroIncident, none)
    ∧ c.UpdateIncident
        (fun _ => .response ⟨st, .ok (.wellFormed (Json.obj members))⟩) inc =
        (some zeroIncident, none)
    ∧ c.GetIncidents
        (fun _ => .response ⟨st, .ok (.wellFormed (Json.obj members))⟩) params =
        ([], none) := by
  have h1 : decodeIncidentResponse (Json.obj members) = .ok ⟨zeroIncident⟩ := by
    simp only [decodeIncidentResponse]
    rw [foldl_result_skip decodeIncident members hres zeroIncident]
    rfl
  have h2 : decodeIncidentsResponse (Json.obj members) = .ok ⟨[]⟩ := by
    simp only [decodeIncidentsResponse]
    rw [foldl_result_skip (fun _ v => decodeIncidentList v) members hres []]
    rfl
  have h3 : decodeIncidentResponse (Json.obj (members ++ [(strB "result", Json.null)])) =
      .ok ⟨zeroIncident⟩ := by
    simp only [decodeIncidentResponse]
    rw [List.foldlM_append]
    rw [foldl_result_skip decodeIncident members hres zeroIncident]
    rfl
  have h4 : decodeIncidentsResponse (Json.obj (members ++ [(strB "result", Json.null)])) =
      .ok ⟨[]⟩ := by
    simp only [decodeIncidentsResponse]
    rw [List.foldlM_append]
    rw [foldl_result_skip (fun _ v => decodeIncidentList v) members hres []]
    rfl
  have hdo : ∀ r : Request,
      c.doRequest (fun _ => .response ⟨st, .ok (.wellFormed (Json.obj members))⟩) r =
      ((some (.wellFormed (Json.obj members)), none), 1) := by
    intro r
    simp [ServiceNowClient.doRequest, Nat.not_le.mpr hst]
  refine ⟨h1, h2, h3, h4, ?_, ?_, ?_⟩
  · simp [ServiceNowClient.CreateIncident, ServiceNowClient.create, hm, hdo,
      unmarshalIncidentResponse, h1]
  · simp [ServiceNowClient.UpdateIncident, ServiceNowClient.update, hm, hdo,
      unmarshalIncidentResponse, h1]
  · simp [ServiceNowClient.GetIncidents, ServiceNowClient.get, hdo,
      unmarshalIncidentsResponse, h2]

/-- Claim C10 witness: a body with a single non-result member. -/
theorem absent_result_decodes_to_defaults_witness :
    (200 < 400 ∧ marshalIncident zeroIncident = .ok marshalledZero)
    ∧ cAcme.CreateIncident
        (fun _ => .response
          ⟨200, .ok (.wellFormed (Json.obj [(strB "foo", Json.bool true)]))⟩)
        zeroIncident = (some zeroIncident, none) := by
  have h := absent_result_decodes_to_defaults cAcme 200 [(strB "foo", Json.bool true)]
      zeroIncident marshalledZero [] (by decide) (by decide) (by rfl)
  exact ⟨⟨by decide, by rfl⟩, h.2.2.2.2.1⟩

/-! Claim C8: query-parameter construction. -/

theorem insertByKey_perm (p : ByteStr × ByteStr) (l : List (ByteStr × ByteStr)) :
    (insertByKey p l).Perm (p :: l) := by
  induction l with
  | nil => exact List.Perm.refl _
  | cons q qs ih =>
    unfold insertByKey
    by_cases h : lexLe p.1 q.1
    · rw [if_pos h]
    · rw [if_neg h]
      exact (List.Perm.cons q ih).trans (List.Perm.swap p q qs)

theorem sortByKey_perm (l : List (ByteStr × ByteStr)) : (sortByKey l).Perm l := by
  induction l with
  | nil => exact List.Perm.refl _
  | cons p ps ih =>
    exact (insertByKey_perm p (sortByKey ps)).trans (List.Perm.cons p ih)

/-- Value of an upper-case hexadecimal digit byte. -/
def unhex (c : Nat) : Nat := if c < 58 then c - 48 else c - 55

theorem unhex_hexDigitU {n : Nat} (h : n < 16) : unhex (hexDigitU n) = n := by
  unfold unhex hexDigitU
  split_ifs <;> omega

/-- Left inverse of the query escaping on byte-valued input, used to show the
escaping is injective. -/
def unescapeQ : List Nat → List Nat
  | [] => []
  | b :: rest =>
    if b = 37 then
      match rest with
      | h1 :: h2 :: rest2 => (unhex h1 * 16 + unhex h2) :: unescapeQ rest2
      | _ => []
    else if b = 43 then 32 :: unescapeQ rest
    else b :: unescapeQ rest

theorem isUnreservedByte_ne {b : Nat} (h : isUnreservedByte b = true) :
    b ≠ 37 ∧ b ≠ 43 := by
  constructor <;> rintro rfl <;> exact absurd h (by decide)

theorem unescapeQ_queryEscape (s : List Nat) (hs : ∀ b ∈ s, b < 256) :
    unescapeQ (queryEscape s) = s := by
  induction s with
  | nil => rfl
  | cons b rest ih =>
    have hb : b < 256 := hs b (List.mem_cons_self b rest)
    have hrest : ∀ x ∈ rest, x < 256 := fun x hx => hs x (List.mem_cons_of_mem b hx)
    show unescapeQ (escByte b ++ queryEscape rest) = b :: rest
    unfold escByte
    by_cases hu : isUnreservedByte b
    · rw [if_pos hu]
      obtain ⟨h37, h43⟩ := isUnreservedByte_ne hu
      show unescapeQ (b :: queryEscape rest) = b :: rest
      unfold unescapeQ
      rw [if_neg h37, if_neg h43, ih hrest]
    · rw [if_neg hu]
      by_cases hsp : b = 32
      · rw [if_pos hsp]
        show unescapeQ (43 :: queryEscape rest) = b :: rest
        unfold unescapeQ
        rw [if_neg (by decide : (43 : Nat) ≠ 37), if_pos rfl, ih hrest, hsp]
      · rw [if_neg hsp]
        show unescapeQ (37 :: hexDigitU (b / 16) :: hexDigitU (b % 16) :: queryEscape rest)
          = b :: rest
        unfold unescapeQ
        rw [if_pos rfl]
        show (unhex (hexDigitU (b / 16)) * 16 + unhex (hexDigitU (b % 16)))
          :: unescapeQ (queryEscape rest) = b :: rest
        rw [unhex_hexDigitU (by omega : b / 16 < 16),
          unhex_hexDigitU (by omega : b % 16 < 16), ih hrest]
        have hb' : b / 16 * 16 + b % 16 = b := by omega
        rw [hb']

theorem queryEscape_inj {s1 s2 : List Nat} (h1 : ∀ b ∈ s1, b < 256)
    (h2 : ∀ b ∈ s2, b < 256) (h : queryEscape s1 = queryEscape s2) : s1 = s2 := by
  have hc := congrArg unescapeQ h
  rwa [unescapeQ_queryEscape s1 h1, unescapeQ_queryEscape s2 h2] at hc

theorem escByte_ne_61 (b x : Nat) (hx : x ∈ escByte b) : x ≠ 61 := by
  unfold escByte at hx
  by_cases hu : isUnreservedByte b
  · rw [if_pos hu] at hx
    simp only [List.mem_singleton] at hx
    subst hx
    intro e
    subst e
    exact absurd hu (by decide)
  · rw [if_neg hu] at hx
    by_cases hsp : b = 32
    · rw [if_pos hsp] at hx
      simp only [List.mem_singleton] at hx
      subst hx
      decide
    · rw [if_neg hsp] at hx
      simp only [List.mem_cons, List.not_mem_nil, or_false] at hx
      rcases hx with rfl | rfl | rfl
      · decide
      · unfold hexDigitU
        split_ifs <;> omega
      · unfold hexDigitU
        split_ifs <;> omega

theorem queryEscape_not_61 (s : List Nat) : 61 ∉ queryEscape s := by
  induction s with
  | nil => simp [queryEscape]
  | cons b rest ih =>
    show 61 ∉ escByte b ++ queryEscape rest
    intro hmem
    rcases List.mem_append.mp hmem with h | h
    · exact escByte_ne_61 b 61 h rfl
    · exact ih h

theorem append_sep_inj : ∀ xs xs' ys ys' : List Nat, 61 ∉ xs → 61 ∉ xs' →
    xs ++ 61 :: ys = xs' ++ 61 :: ys' → xs = xs' ∧ ys = ys' := by
  intro xs
  induction xs with
  | nil =>
    intro xs' ys ys' hx hx' h
    cases xs' with
    | nil =>
      injection h with h1 h2
      exact ⟨rfl, h2⟩
    | cons a as =>
      injection h with h1 h2
      subst h1
      exact absurd (List.mem_cons_self _ _) hx'
  | cons a as ih =>
    intro xs' ys ys' hx hx' h
    cases xs' with
    | nil =>
      injection h with h1 h2
      subst h1
      exact absurd (List.mem_cons_self _ _) hx
    | cons a' as' =>
      injection h with h1 h2
      subst h1
      obtain ⟨e1, e2⟩ := ih as' ys ys'
        (fun m => hx (List.mem_cons_of_mem _ m))
        (fun m => hx' (List.mem_cons_of_mem _ m)) h2
      exact ⟨by rw [e1], e2⟩

theorem encPair_inj {p q : ByteStr × ByteStr}
    (hp : (∀ b ∈ p.1, b < 256) ∧ (∀ b ∈ p.2, b < 256))
    (hq : (∀ b ∈ q.1, b < 256) ∧ (∀ b ∈ q.2, b < 256))
    (h : encPair p = encPair q) : p = q := by
  obtain ⟨pk, pv⟩ := p
  obtain ⟨qk, qv⟩ := q
  unfold encPair at h
  rw [List.append_assoc, List.append_assoc] at h
  obtain ⟨e1, e2⟩ := append_sep_inj (queryEscape pk) (queryEscape qk)
    (queryEscape pv) (queryEscape qv) (queryEscape_not_61 pk) (queryEscape_not_61 qk) h
  have hk : pk = qk := queryEscape_inj hp.1 hq.1 e1
  have hv : pv = qv := queryEscape_inj hp.2 hq.2 e2
  rw [hk, hv]

/-- Counting is invariant under permutation (stated at the instances used here). -/
theorem perm_count_eq {l1 l2 : List ByteStr} (h : l1.Perm l2) (a : ByteStr) :
    l1.count a = l2.count a := by
  induction h with
  | nil => rfl
  | cons x _ ih => simp only [List.count_cons, ih]
  | swap x y l => simp only [List.count_cons]; omega
  | trans _ _ ih1 ih2 => exact ih1.trans ih2

/-- In a duplicate-free list every member is counted exactly once (stated at the
instances used here). -/
theorem count_eq_one_of_nodup_mem {l : List ByteStr} {a : ByteStr}
    (hn : l.Nodup) (ha : a ∈ l) : l.count a = 1 := by
  induction l with
  | nil => cases ha
  | cons x xs ih =>
    rcases List.mem_cons.mp ha with rfl | hmem
    · have hx : a ∉ xs := (List.nodup_cons.mp hn).1
      rw [List.count_cons_self, List.count_eq_zero.mpr hx]
    · have hne : a ≠ x := fun e => (List.nodup_cons.mp hn).1 (e ▸ hmem)
      rw [List.count_cons_of_ne hne]
      exact ih (List.nodup_cons.mp hn).2 hmem

/-- Claim C8: `get` — and hence `GetIncidents` — issues a GET request to
`{base}/api/now/v2/table/{table}` whose query string is the ampersand-join of the
URL-encoded `key=value` components of params, each key/value pair appearing exactly
once with no duplication (the order being the sorted key order); the only request
consulted is that one (two transports agreeing on it give identical results). -/
theorem getIncidents_query_pairs (c : ServiceNowClient) (table : ByteStr)
    (params : List (ByteStr × ByteStr)) (t1 t2 : Transport)
    (hkeys : (params.map Prod.fst).Nodup)
    (hbytes : ∀ p ∈ params, (∀ b ∈ p.1, b < 256) ∧ (∀ b ∈ p.2, b < 256))
    (hagree : t1 (c.snReq (c.getReq (strB "incident") params)) =
      t2 (c.snReq (c.getReq (strB "incident") params))) :
    (c.getReq table params).method = strB "GET"
    ∧ (c.getReq table params).urlPath = c.baseURL ++ strB "/api/now/v2/table/" ++ table
    ∧ (∃ comps : List ByteStr, comps.Perm (params.map encPair)
        ∧ (c.getReq table params).rawQuery = ampJoin comps
        ∧ ∀ p ∈ params, comps.count (encPair p) = 1)
    ∧ c.GetIncidents t1 params = c.GetIncidents t2 params := by
  refine ⟨rfl, rfl, ?_, ?_⟩
  · refine ⟨(sortByKey params).map encPair,
      (sortByKey_perm params).map encPair, rfl, ?_⟩
    intro p hp
    have hnodup : params.Nodup := List.Nodup.of_map Prod.fst hkeys
    have hinj : ∀ x ∈ params, ∀ y ∈ params, encPair x = encPair y → x = y :=
      fun x hx y hy hxy => encPair_inj (hbytes x hx) (hbytes y hy) hxy
    have hnodupM : (params.map encPair).Nodup := hnodup.map_on hinj
    have hcount1 : (params.map encPair).count (encPair p) = 1 :=
      count_eq_one_of_nodup_mem hnodupM (List.mem_map_of_mem encPair hp)
    exact (perm_count_eq ((sortByKey_perm params).map encPair) (encPair p)).trans hcount1
  · simp only [ServiceNowClient.GetIncidents, ServiceNowClient.get,
      ServiceNowClient.doRequest, hagree]

/-- Claim C8 witness: the params mapping {active: true, priority: 1}. -/
theorem getIncidents_query_pairs_witness :
    (([(strB "active", strB "true"), (strB "priority", strB "1")].map Prod.fst).Nodup)
    ∧ ∃ comps : List ByteStr,
        comps.Perm
          ([(strB "active", strB "true"), (strB "priority", strB "1")].map encPair)
        ∧ (cAcme.getReq (strB "incident")
            [(strB "active", strB "true"), (strB "priority", strB "1")]).rawQuery =
            ampJoin comps
        ∧ ∀ p ∈ [(strB "active", strB "true"), (strB "priority", strB "1")],
            comps.count (encPair p) = 1 := by
  have h := getIncidents_query_pairs cAcme (strB "incident")
      [(strB "active", strB "true"), (strB "priority", strB "1")]
      (fun _ => .failure "x") (fun _ => .failure "x")
      (by decide) (by decide) rfl
  exact ⟨by decide, h.2.2.1⟩
